import Mathlib

/-!
Shallow embedding of the product-verification web service (src/app.py).

The service is a Flask + PostgreSQL CRUD application.  The embedding models
the `products` table as a `List Product`, the `admins` table as a
`List Admin`, and the Flask session as a `Session` record.  Each HTTP
handler of `app.py` becomes a pure function from the current store (and the
request data) to the new store and a typed response; the PostgreSQL `UNIQUE`
constraint on `product_code` is modelled by an explicit exact-equality
conflict check at the insertion points, and the `psycopg2.IntegrityError`
handler of `add_product` becomes the conflict branch returning the 409
response.  Machine-level details that the handlers rely on are embedded
directly: Python's `str.upper()` as a character map, `str.replace('/', '-')`
as a character map, `str.strip()` as whitespace trimming on both ends.
-/

namespace ProductVerify

set_option maxRecDepth 8000

/-- Embedding of Python `str.upper()` (per-character ASCII uppercasing),
as used on every stored `product_code`. -/
def upperStr (s : String) : String := ⟨s.data.map Char.toUpper⟩

/-- Embedding of Python `s.replace('/', '-')`, the purchase-date separator
normalization of `add_product` and `batch_add_products`. -/
def normDate (s : String) : String :=
  ⟨s.data.map (fun c => if c = '/' then '-' else c)⟩

/-- Embedding of Python `str.strip()` as used on the login username:
whitespace removed from both ends. -/
def stripStr (s : String) : String :=
  ⟨((s.data.dropWhile Char.isWhitespace).reverse.dropWhile Char.isWhitespace).reverse⟩

/-- Modelled from the spec: the `DATE NOT NULL` column of `products` is
PostgreSQL's, not code of this repository.  Per the spec a
`purchase_date` is "accepted in `YYYY-MM-DD` or `YYYY/MM/DD`" and "dates
round-trip as ISO `YYYY-MM-DD` strings in all responses": the column
parses four digits, a separator (`-` or `/`), two digits, a separator,
two digits — an invalid string is rejected (`none`) — and every read
serialises the stored date in the ISO form with `-`.  This function maps
the string a handler passes for the column to the value the column
stores and every response serves. -/
def pgDateStored (s : String) : Option String :=
  match (normDate s).data with
  | [y1, y2, y3, y4, c1, m1, m2, c2, d1, d2] =>
    if (y1.isDigit && y2.isDigit && y3.isDigit && y4.isDigit &&
        m1.isDigit && m2.isDigit && d1.isDigit && d2.isDigit) &&
       (c1 == '-') && (c2 == '-') then
      some ⟨[y1, y2, y3, y4, '-', m1, m2, '-', d1, d2]⟩
    else none
  | _ => none

/-- A row of the `products` table (src/app.py, `init_db`): serial id, the
four data columns, and the two timestamp columns (modelled as `Nat`). -/
structure Product where
  id : Nat
  product_code : String
  product_name : String
  hospital_name : String
  purchase_date : String
  created_at : Nat
  updated_at : Nat
deriving DecidableEq, Repr

/-- The `UNIQUE` constraint on `products.product_code`: exact (case
sensitive) equality on the stored text, as PostgreSQL enforces it. -/
def hasCode (store : List Product) (code : String) : Bool :=
  store.any (fun p => p.product_code == code)

/-- A row of the `admins` table. -/
structure Admin where
  id : Nat
  username : String
  password_hash : String
deriving DecidableEq

/-- The Flask session: `admin_id` and `admin_username` keys, each possibly
absent. -/
structure Session where
  admin_id : Option Nat
  admin_username : Option String
deriving DecidableEq

/-- The four JSON body fields of a product request; `none` models an absent
key, `some ""` a key bound to the empty string. -/
structure ProductInput where
  product_code : Option String
  product_name : Option String
  hospital_name : Option String
  purchase_date : Option String
deriving DecidableEq

/-- Python's `not data.get(field)` guard in `add_product` and
`update_product`: the field passes only when present and non-empty. -/
def presentNonEmpty : Option String → Bool
  | some v => !(v == "")
  | none => false

/-! ## verify_product (GET /api/verify/{code}) -/

/-- The response `data` object of a successful verification: exactly the
four columns selected by `verify_product`. -/
structure VerifyData where
  product_code : String
  product_name : String
  hospital_name : String
  purchase_date : String
deriving DecidableEq, Repr

/-- The four display fields of a product, as `verify_product` serializes
them into the response. -/
def displayData (p : Product) : VerifyData :=
  ⟨p.product_code, p.product_name, p.hospital_name, p.purchase_date⟩

/-- Result of `verify_product`: found with data, or the not-found message. -/
inductive VerifyResult where
  | found (data : VerifyData)
  | notFound (message : String)
deriving DecidableEq, Repr

/-- Embedding of `verify_product`: case-insensitive exact match
(`WHERE UPPER(product_code) = UPPER(%s)`), returning the four display
fields of the matching row. -/
def verify_product (store : List Product) (code : String) : VerifyResult :=
  match store.find? (fun p => upperStr p.product_code == upperStr code) with
  | some p => .found (displayData p)
  | none => .notFound "查無此產品編碼，請確認編碼是否正確"

/-! ## add_product (POST /api/products) -/

/-- Result of `add_product`, with the HTTP status carried by `status`. -/
inductive AddResult where
  | validationError (message : String)
  | created (id : Nat) (message : String)
  | duplicateCode (message : String)
deriving DecidableEq, Repr

/-- The HTTP status `add_product` pairs with each JSON body. -/
def AddResult.status : AddResult → Nat
  | .validationError _ => 400
  | .created _ _ => 201
  | .duplicateCode _ => 409

/-- Embedding of `add_product`: required-field check in source order, then
`INSERT` of the upper-cased code and `-`-normalized date; a uniqueness
conflict is caught and becomes the 409 duplicate response with the store
rolled back. -/
def add_product (store : List Product) (nextId now : Nat) (data : ProductInput) :
    List Product × AddResult :=
  if !(presentNonEmpty data.product_code) then
    (store, .validationError "缺少必要欄位: product_code")
  else if !(presentNonEmpty data.product_name) then
    (store, .validationError "缺少必要欄位: product_name")
  else if !(presentNonEmpty data.hospital_name) then
    (store, .validationError "缺少必要欄位: hospital_name")
  else if !(presentNonEmpty data.purchase_date) then
    (store, .validationError "缺少必要欄位: purchase_date")
  else
    if hasCode store (upperStr (data.product_code.getD "")) then
      (store, .duplicateCode "產品編碼已存在")
    else
      (store ++ [{ id := nextId, product_code := upperStr (data.product_code.getD ""),
                   product_name := data.product_name.getD "",
                   hospital_name := data.hospital_name.getD "",
                   purchase_date := normDate (data.purchase_date.getD ""),
                   created_at := now, updated_at := now }],
       .created nextId "產品新增成功")

/-! ## update_product (PUT /api/products/{id}) -/

/-- Result of `update_product`. -/
inductive UpdateResult where
  | notFound (message : String)
  | duplicateCode (message : String)
  | success (message : String)
deriving DecidableEq, Repr

/-- The HTTP status `update_product` pairs with each JSON body. -/
def UpdateResult.status : UpdateResult → Nat
  | .notFound _ => 404
  | .duplicateCode _ => 409
  | .success _ => 200

/-- The dynamic `SET` clause of `update_product`: each field present and
non-empty in the request replaces the column (code upper-cased, the date
passed along as supplied — unlike create, no `replace('/', '-')` here),
and `updated_at` is always set to the current time.  The `purchase_date`
field holds the string the handler hands to the `DATE` column;
`pgDateStored` maps it to the value the column stores and serves. -/
def applyUpdate (data : ProductInput) (now : Nat) (p : Product) : Product :=
  { p with
    product_code :=
      if presentNonEmpty data.product_code then upperStr (data.product_code.getD "")
      else p.product_code,
    product_name :=
      if presentNonEmpty data.product_name then data.product_name.getD ""
      else p.product_name,
    hospital_name :=
      if presentNonEmpty data.hospital_name then data.hospital_name.getD ""
      else p.hospital_name,
    purchase_date :=
      if presentNonEmpty data.purchase_date then data.purchase_date.getD ""
      else p.purchase_date,
    updated_at := now }

/-- Embedding of `update_product`: 404 when the id is absent, 409 when a
supplied code collides case-insensitively with a different row, otherwise
the dynamic update of the matching row. -/
def update_product (store : List Product) (pid : Nat) (data : ProductInput)
    (now : Nat) : List Product × UpdateResult :=
  if !(store.any (fun p => p.id == pid)) then
    (store, .notFound "找不到該產品")
  else if presentNonEmpty data.product_code &&
      store.any (fun p =>
        (upperStr p.product_code == upperStr (data.product_code.getD "")) &&
        !(p.id == pid)) then
    (store, .duplicateCode "產品編碼已被其他產品使用")
  else
    (store.map (fun p => if p.id == pid then applyUpdate data now p else p),
     .success "產品更新成功")

/-! ## delete_product (DELETE /api/products/{id}) -/

/-- Result of `delete_product`. -/
inductive DeleteResult where
  | notFound (message : String)
  | success (message : String)
deriving DecidableEq, Repr

/-- Embedding of `delete_product`. -/
def delete_product (store : List Product) (pid : Nat) :
    List Product × DeleteResult :=
  if !(store.any (fun p => p.id == pid)) then
    (store, .notFound "找不到該產品")
  else
    (store.filter (fun p => !(p.id == pid)), .success "產品刪除成功")

/-! ## get_all_products (GET /api/products) -/

/-- Case-insensitive substring test, embedding `ILIKE '%needle%'`. -/
def containsCI (hay needle : String) : Bool :=
  (List.range (hay.data.length + 1)).any fun i =>
    (upperStr needle).data.isPrefixOf ((upperStr hay).data.drop i)

/-- The search predicate of `get_all_products`: code, name or hospital
matches the substring case-insensitively. -/
def rowMatches (search : String) (p : Product) : Bool :=
  containsCI p.product_code search || containsCI p.product_name search ||
    containsCI p.hospital_name search

/-- The rows selected by `get_all_products`: all rows when `search` is
empty (Python falsy), else the three-column `ILIKE` filter.  The count
query and the page query of the source use this same predicate. -/
def matchFilter (store : List Product) (search : String) : List Product :=
  if search == "" then store else store.filter (rowMatches search)

/-- The `ORDER BY created_at DESC` ordering relation. -/
def createdDesc (a b : Product) : Prop := b.created_at ≤ a.created_at

instance : DecidableRel createdDesc := fun _ _ => Nat.decLe _ _

instance : IsTotal Product createdDesc :=
  ⟨fun a b => Nat.le_total b.created_at a.created_at⟩

instance : IsTrans Product createdDesc :=
  ⟨fun _ _ _ h1 h2 => Nat.le_trans h2 h1⟩

/-- The result set ordering `ORDER BY created_at DESC`. -/
def ordByCreatedDesc (l : List Product) : List Product :=
  l.insertionSort createdDesc

/-- The JSON response of `get_all_products`: the page of rows plus the
pagination object. -/
structure ListResponse where
  data : List Product
  page : Nat
  per_page : Nat
  total : Nat
  total_pages : Nat
deriving DecidableEq, Repr

/-- Embedding of `get_all_products`: count the matching rows, then return
the `LIMIT per_page OFFSET (page-1)*per_page` slice of the matching rows
ordered by `created_at` descending, with
`total_pages = (total + per_page - 1) // per_page`. -/
def get_all_products (store : List Product) (page per_page : Nat)
    (search : String) : ListResponse :=
  let matched := matchFilter store search
  let total := matched.length
  { data := ((ordByCreatedDesc matched).drop ((page - 1) * per_page)).take per_page,
    page := page, per_page := per_page, total := total,
    total_pages := (total + per_page - 1) / per_page }

/-! ## batch_add_products (POST /api/products/batch) -/

/-- The first key the batch row loop would fail on with a `KeyError`, in
the source's access order (`purchase_date` is read first, then the tuple
fields); `str(KeyError)` keeps the quotes around the key name. -/
def rowMissingKey (r : ProductInput) : Option String :=
  if r.purchase_date.isNone then some "'purchase_date'"
  else if r.product_code.isNone then some "'product_code'"
  else if r.product_name.isNone then some "'product_name'"
  else if r.hospital_name.isNone then some "'hospital_name'"
  else none

/-- The tuple appended to `valid_products` for a row with all four keys:
upper-cased code, raw name and hospital, `-`-normalized date. -/
def renderRow (r : ProductInput) : String × String × String × String :=
  (upperStr (r.product_code.getD ""), r.product_name.getD "",
   r.hospital_name.getD "", normDate (r.purchase_date.getD ""))

/-- The validation loop of `batch_add_products`: rows with all keys become
tuples, rows with a missing key become `"第 N 筆: 缺少欄位 K"` messages,
with `N` one-based. -/
def batchValidate : Nat → List ProductInput →
    List (String × String × String × String) × List String
  | _, [] => ([], [])
  | i, r :: rest =>
    match rowMissingKey r with
    | some k => ((batchValidate (i + 1) rest).1,
        ("第 " ++ toString (i + 1) ++ " 筆: 缺少欄位 " ++ k) ::
          (batchValidate (i + 1) rest).2)
    | none => (renderRow r :: (batchValidate (i + 1) rest).1,
        (batchValidate (i + 1) rest).2)

/-- Reference insertion function: conflict-skip insertion of every row
with the TOTAL number of inserted rows.  `execute_values` below agrees
with it on the store it builds, and on the count as well whenever the
batch fits in a single page. -/
def insertRows (store : List Product) (nextId now : Nat) :
    List (String × String × String × String) → List Product × Nat
  | [] => (store, 0)
  | (c, n, h, d) :: rest =>
    if hasCode store c then insertRows store nextId now rest
    else
      ((insertRows
          (store ++ [{ id := nextId, product_code := c, product_name := n,
                       hospital_name := h, purchase_date := d,
                       created_at := now, updated_at := now }])
          (nextId + 1) now rest).1,
       (insertRows
          (store ++ [{ id := nextId, product_code := c, product_name := n,
                       hospital_name := h, purchase_date := d,
                       created_at := now, updated_at := now }])
          (nextId + 1) now rest).2 + 1)

/-- The paged bulk insert of `psycopg2.extras.execute_values`: the rows
are split into consecutive pages of `pageSize` and one
`INSERT ... ON CONFLICT (product_code) DO NOTHING` is executed per page.
`room` counts the slots left in the current page and `cnt` the rows the
current page has inserted so far; when a row begins while `room = 0` a
new page (a new `INSERT`) starts and the running `rowcount` resets.  The
returned count is therefore the `rowcount` of the LAST page only, which
is what `cursor.rowcount` reads after the loop. -/
def execValuesAux (pageSize : Nat) : List Product → Nat → Nat → Nat → Nat →
    List (String × String × String × String) → List Product × Nat
  | store, _, _, _, cnt, [] => (store, cnt)
  | store, nextId, now, room, cnt, (c, n, h, d) :: rest =>
    if hasCode store c then
      execValuesAux pageSize store nextId now
        (if room = 0 then pageSize - 1 else room - 1)
        (if room = 0 then 0 else cnt) rest
    else
      execValuesAux pageSize
        (store ++ [{ id := nextId, product_code := c, product_name := n,
                     hospital_name := h, purchase_date := d,
                     created_at := now, updated_at := now }])
        (nextId + 1) now
        (if room = 0 then pageSize - 1 else room - 1)
        ((if room = 0 then 0 else cnt) + 1) rest

/-- The source's bulk insert:
`execute_values(cursor, 'INSERT ... ON CONFLICT DO NOTHING', valid_products, page_size=500)`
followed by reading `cursor.rowcount`, which reflects only the last
500-row page. -/
def execute_values (store : List Product) (nextId now : Nat)
    (vs : List (String × String × String × String)) : List Product × Nat :=
  execValuesAux 500 store nextId now 500 0 vs

/-- Result of `batch_add_products`: the two 400 rejections, or the 200
summary carrying `success_count` and the accumulated `errors` list. -/
inductive BatchResult where
  | emptyRequest (message : String)
  | noValidRows (message : String) (errors : List String)
  | done (message : String) (success_count : Nat) (errors : List String)
deriving DecidableEq, Repr

/-- The HTTP status `batch_add_products` pairs with each JSON body. -/
def BatchResult.status : BatchResult → Nat
  | .emptyRequest _ => 400
  | .noValidRows _ _ => 400
  | .done _ _ _ => 200

/-- Embedding of `batch_add_products`: reject an empty list, validate each
row in Python, reject when nothing is valid, otherwise bulk-insert with
conflict-skip and append the duplicate-skip note when any row was
skipped. -/
def batch_add_products (store : List Product) (nextId now : Nat)
    (rows : List ProductInput) : List Product × BatchResult :=
  if rows.isEmpty then (store, .emptyRequest "沒有提供產品資料")
  else
    let valids := (batchValidate 0 rows).1
    let errs := (batchValidate 0 rows).2
    if valids.isEmpty then (store, .noValidRows "沒有有效的產品資料" errs)
    else
      let st := (execute_values store nextId now valids).1
      let k := (execute_values store nextId now valids).2
      let dup := valids.length - k
      let errs2 := if dup > 0 then
          errs ++ [toString dup ++ " 筆編碼已存在，已略過"]
        else errs
      (st, .done ("成功新增 " ++ toString k ++ " 筆，略過 " ++ toString dup ++ " 筆重複")
        k errs2)

/-! ## get_stats (GET /api/stats) -/

/-- The statistics payload: `COUNT(*)` and `COUNT(DISTINCT hospital_name)`. -/
structure StatsData where
  total_products : Nat
  total_hospitals : Nat
deriving DecidableEq, Repr

/-- Embedding of `get_stats`. -/
def get_stats (store : List Product) : StatsData :=
  ⟨store.length, (store.map (fun p => p.hospital_name)).dedup.length⟩

/-! ## api_login (POST /api/login) and the auth guard -/

/-- The JSON body and HTTP status of an `api_login` response. -/
structure LoginResponse where
  status : Nat
  success : Bool
  message : String
deriving DecidableEq, Repr

/-- Embedding of `api_login`: the username is stripped, empty credentials
give 400, then the admin row is looked up by exact username and the
password checked against the stored hash (`checkHash` abstracts
`check_password_hash`); a hit establishes the session, and both failure
causes fall into the single 401 else-branch of the source. -/
def api_login (admins : List Admin) (checkHash : String → String → Bool)
    (username password : String) (sess : Session) : Session × LoginResponse :=
  let username := stripStr username
  if username == "" || password == "" then
    (sess, ⟨400, false, "請輸入帳號和密碼"⟩)
  else
    match admins.find? (fun a => a.username == username) with
    | some a =>
      if checkHash a.password_hash password then
        ({ admin_id := some a.id, admin_username := some username },
         ⟨200, true, "登入成功"⟩)
      else (sess, ⟨401, false, "帳號或密碼錯誤"⟩)
    | none => (sess, ⟨401, false, "帳號或密碼錯誤"⟩)

/-- Result of a guarded route: the guard's own 401 body, or the wrapped
handler's response. -/
inductive Guarded (ρ : Type) where
  | unauthorized (status : Nat) (success : Bool) (message : String)
  | ok (r : ρ)
deriving DecidableEq, Repr

/-- Embedding of the `login_required` decorator: when the session has no
`admin_id` the request short-circuits with the fixed 401 body and the
store untouched; otherwise the wrapped handler runs. -/
def login_required {σ α ρ : Type} (f : Session → σ → α → σ × ρ) :
    Session → σ → α → σ × Guarded ρ :=
  fun sess st a =>
    match sess.admin_id with
    | some _ =>
      let (st2, r) := f sess st a
      (st2, .ok r)
    | none => (st, .unauthorized 401 false "請先登入")

/-- GET /api/products behind the guard. -/
def products_get_route : Session → List Product → Nat × Nat × String →
    List Product × Guarded ListResponse :=
  login_required (fun _ st a => (st, get_all_products st a.1 a.2.1 a.2.2))

/-- POST /api/products behind the guard. -/
def products_post_route : Session → List Product → Nat × Nat × ProductInput →
    List Product × Guarded AddResult :=
  login_required (fun _ st a => add_product st a.1 a.2.1 a.2.2)

/-- PUT /api/products/{id} behind the guard. -/
def product_put_route : Session → List Product → Nat × ProductInput × Nat →
    List Product × Guarded UpdateResult :=
  login_required (fun _ st a => update_product st a.1 a.2.1 a.2.2)

/-- DELETE /api/products/{id} behind the guard. -/
def product_delete_route : Session → List Product → Nat →
    List Product × Guarded DeleteResult :=
  login_required (fun _ st pid => delete_product st pid)

/-- POST /api/products/batch behind the guard. -/
def products_batch_route : Session → List Product →
    Nat × Nat × List ProductInput → List Product × Guarded BatchResult :=
  login_required (fun _ st a => batch_add_products st a.1 a.2.1 a.2.2)

/-- GET /api/stats behind the guard. -/
def stats_route : Session → List Product → Unit →
    List Product × Guarded StatsData :=
  login_required (fun _ st _ => (st, get_stats st))

/-! ## Supporting lemmas -/

theorem char_toNat_ofNat {n : Nat} (h : n.isValidChar) : (Char.ofNat n).toNat = n := by
  simp [Char.ofNat, dif_pos h, Char.ofNatAux, Char.toNat, UInt32.toNat, BitVec.toNat_ofNatLt]

theorem toUpper_not_lower (c : Char) :
    (Char.toUpper c).toNat < 97 ∨ 122 < (Char.toUpper c).toNat := by
  simp only [Char.toUpper]
  split
  · next hc =>
    have hv : (c.toNat - 32).isValidChar := by
      left
      omega
    rw [char_toNat_ofNat hv]
    omega
  · next hc =>
    omega

theorem toUpper_eq_self_of_not_lower {x : Char}
    (h : x.toNat < 97 ∨ 122 < x.toNat) : x.toUpper = x := by
  simp only [Char.toUpper]
  split
  · next hc => omega
  · rfl

theorem toUpper_toUpper (c : Char) : c.toUpper.toUpper = c.toUpper :=
  toUpper_eq_self_of_not_lower (toUpper_not_lower c)

theorem upperStr_idem (s : String) : upperStr (upperStr s) = upperStr s := by
  unfold upperStr
  rw [List.map_map]
  congr 1
  exact List.map_congr_left (fun a _ => toUpper_toUpper a)

theorem normDate_no_slash (s : String) : '/' ∉ (normDate s).data := by
  intro h
  obtain ⟨c, _, hc⟩ := List.mem_map.1 h
  by_cases h' : c = '/'
  · rw [if_pos h'] at hc
    exact absurd hc (by decide)
  · rw [if_neg h'] at hc
    exact h' hc

theorem normDate_idem (s : String) : normDate (normDate s) = normDate s := by
  unfold normDate
  rw [List.map_map]
  congr 1
  refine List.map_congr_left (fun a _ => ?_)
  by_cases ha : a = '/'
  · simp [Function.comp, ha]
  · simp [Function.comp, ha]

theorem digit_ne_slash {c : Char} (h : c.isDigit = true) : c ≠ '/' := by
  intro he
  rw [he] at h
  exact absurd h (by decide)

theorem slashMap_of_digit {c : Char} (h : c.isDigit = true) :
    (if c = '/' then '-' else c) = c :=
  if_neg (digit_ne_slash h)

theorem pgDateStored_normDate (s : String) :
    pgDateStored (normDate s) = pgDateStored s := by
  unfold pgDateStored
  rw [normDate_idem]

theorem pgDateStored_no_slash (s t : String) (h : pgDateStored s = some t) :
    '/' ∉ t.data := by
  unfold pgDateStored at h
  split at h
  · next y1 y2 y3 y4 c1 m1 m2 c2 d1 d2 heq =>
    split at h
    · next hcond =>
      obtain rfl : t = ⟨[y1, y2, y3, y4, '-', m1, m2, '-', d1, d2]⟩ :=
        (Option.some.inj h).symm
      simp only [Bool.and_eq_true] at hcond
      intro hmem
      simp only [List.mem_cons, List.not_mem_nil, or_false] at hmem
      rcases hmem with h1 | h1 | h1 | h1 | h1 | h1 | h1 | h1 | h1 | h1 <;>
        first
          | exact absurd h1 (by decide)
          | (exact digit_ne_slash (by tauto) h1.symm)
    · exact absurd h (by simp)
  · exact absurd h (by simp)

theorem find?_append_none {α : Type} (p : α → Bool) {l1 : List α} (l2 : List α)
    (h : ∀ x ∈ l1, p x = false) : (l1 ++ l2).find? p = l2.find? p := by
  induction l1 with
  | nil => rfl
  | cons a l ih =>
    have ha : p a = false := h a (List.mem_cons_self a l)
    simp only [List.cons_append, List.find?, ha]
    exact ih (fun x hx => h x (List.mem_cons_of_mem a hx))

theorem hasCode_iff (store : List Product) (code : String) :
    hasCode store code = true ↔ ∃ p ∈ store, p.product_code = code := by
  unfold hasCode
  rw [List.any_eq_true]
  constructor
  · rintro ⟨p, hp, hpc⟩
    exact ⟨p, hp, by simpa using hpc⟩
  · rintro ⟨p, hp, hpc⟩
    exact ⟨p, hp, by simpa using hpc⟩

/-! ## Claims -/

theorem add_product_preserves_norm (store : List Product) (nextId now : Nat)
    (data : ProductInput)
    (hnorm : ∀ p ∈ store, upperStr p.product_code = p.product_code) :
    ∀ p ∈ (add_product store nextId now data).1,
      upperStr p.product_code = p.product_code := by
  intro p hp
  simp only [add_product] at hp
  split at hp
  · exact hnorm p hp
  · split at hp
    · exact hnorm p hp
    · split at hp
      · exact hnorm p hp
      · split at hp
        · exact hnorm p hp
        · split at hp
          · exact hnorm p hp
          · rcases List.mem_append.1 hp with h1 | h1
            · exact hnorm p h1
            · rcases List.mem_singleton.1 h1 with rfl
              exact upperStr_idem _

theorem update_product_preserves_norm (store : List Product) (pid now : Nat)
    (data : ProductInput)
    (hnorm : ∀ p ∈ store, upperStr p.product_code = p.product_code) :
    ∀ p ∈ (update_product store pid data now).1,
      upperStr p.product_code = p.product_code := by
  intro p hp
  simp only [update_product] at hp
  split at hp
  · exact hnorm p hp
  · split at hp
    · exact hnorm p hp
    · obtain ⟨q, hq, rfl⟩ := List.mem_map.1 hp
      split
      · simp only [applyUpdate]
        split
        · exact upperStr_idem _
        · exact hnorm q hq
      · exact hnorm q hq

/-- C1: For every product successfully created via create with product code
`c`, a subsequent verify for any string `c'` equal to `c` up to letter case
returns Found with the stored product_code (upper-cased), product_name,
hospital_name, and purchase_date.  The hypothesis `hnorm` is the reachable
state invariant that every stored code is already upper-cased. -/
theorem C1_create_verify_roundtrip
    (store store2 : List Product) (nextId now newId : Nat) (data : ProductInput)
    (c c' : String)
    (hc : data.product_code = some c)
    (hnorm : ∀ p ∈ store, upperStr p.product_code = p.product_code)
    (hsucc : add_product store nextId now data =
      (store2, AddResult.created newId "產品新增成功"))
    (hcase : upperStr c' = upperStr c) :
    verify_product store2 c' =
      VerifyResult.found ⟨upperStr c, data.product_name.getD "",
        data.hospital_name.getD "", normDate (data.purchase_date.getD "")⟩ := by
  simp only [add_product] at hsucc
  split at hsucc
  · simp at hsucc
  · split at hsucc
    · simp at hsucc
    · split at hsucc
      · simp at hsucc
      · split at hsucc
        · simp at hsucc
        · split at hsucc
          · simp at hsucc
          · next hdup =>
            rw [hc] at hsucc hdup
            simp only [Option.getD_some] at hsucc hdup
            simp only [Prod.mk.injEq, AddResult.created.injEq] at hsucc
            obtain ⟨rfl, -, -⟩ := hsucc
            unfold verify_product
            rw [find?_append_none]
            · have hpred : (upperStr (upperStr c) == upperStr c') = true := by
                rw [upperStr_idem, hcase]
                exact beq_self_eq_true _
              simp only [List.find?, hpred]
              rfl
            · intro p hp
              rw [beq_eq_false_iff_ne]
              intro hpc
              apply hdup
              rw [hasCode_iff]
              refine ⟨p, hp, ?_⟩
              rw [← hnorm p hp, hpc, hcase]

/-- Witness for C1 at a concrete input: creating `"abc-1"` into an empty
store and verifying `"ABC-1"`. -/
theorem C1_create_verify_roundtrip_witness :
    add_product [] 1 5 ⟨some "abc-1", some "n", some "h", some "2024/01/02"⟩ =
      ([{ id := 1, product_code := "ABC-1", product_name := "n",
          hospital_name := "h", purchase_date := "2024-01-02",
          created_at := 5, updated_at := 5 }], .created 1 "產品新增成功") ∧
    verify_product [{ id := 1, product_code := "ABC-1", product_name := "n",
                      hospital_name := "h", purchase_date := "2024-01-02",
                      created_at := 5, updated_at := 5 }] "ABC-1" =
      VerifyResult.found ⟨upperStr "abc-1", "n", "h", normDate "2024/01/02"⟩ :=
  ⟨by decide,
   C1_create_verify_roundtrip [] _ 1 5 1
     ⟨some "abc-1", some "n", some "h", some "2024/01/02"⟩ "abc-1" "ABC-1"
     rfl (by simp) (by decide) (by decide)⟩

/-- C2: For every state containing a product with code `c`, a create whose
product_code differs from `c` only by letter case returns DuplicateCode
(HTTP 409) with the store unchanged: the storage-level uniqueness conflict
is translated into the 409 duplicate response.  `hnorm` is the reachable
state invariant that stored codes are upper-cased. -/
theorem C2_case_insensitive_duplicate
    (store : List Product) (nextId now : Nat) (data : ProductInput) (p : Product)
    (hp : p ∈ store)
    (hnorm : ∀ q ∈ store, upperStr q.product_code = q.product_code)
    (c : String) (hc : data.product_code = some c) (hc0 : c ≠ "")
    (hcn : presentNonEmpty data.product_name = true)
    (hhn : presentNonEmpty data.hospital_name = true)
    (hdn : presentNonEmpty data.purchase_date = true)
    (hcase : upperStr c = upperStr p.product_code) :
    add_product store nextId now data = (store, .duplicateCode "產品編碼已存在") ∧
    (AddResult.duplicateCode "產品編碼已存在").status = 409 := by
  refine ⟨?_, rfl⟩
  have hcp : presentNonEmpty data.product_code = true := by
    rw [hc]
    simpa [presentNonEmpty] using hc0
  have hdupl : hasCode store (upperStr (data.product_code.getD "")) = true := by
    rw [hc, Option.getD_some, hasCode_iff]
    exact ⟨p, hp, by rw [← hnorm p hp, hcase]⟩
  simp only [add_product, hcp, hcn, hhn, hdn, hdupl, Bool.not_true,
    Bool.false_eq_true, if_false, if_true]

/-- Witness for C2: store holding code `"X1"`, create with `"x1"`. -/
theorem C2_case_insensitive_duplicate_witness :
    add_product [{ id := 1, product_code := "X1", product_name := "n",
                   hospital_name := "h", purchase_date := "2024-01-01",
                   created_at := 0, updated_at := 0 }] 2 9
      ⟨some "x1", some "n2", some "h2", some "2024-01-02"⟩ =
      ([{ id := 1, product_code := "X1", product_name := "n",
          hospital_name := "h", purchase_date := "2024-01-01",
          created_at := 0, updated_at := 0 }], .duplicateCode "產品編碼已存在") ∧
    (AddResult.duplicateCode "產品編碼已存在").status = 409 :=
  C2_case_insensitive_duplicate _ 2 9 _ _ (List.mem_singleton_self _)
    (by decide) "x1" rfl (by decide) (by decide) (by decide) (by decide) (by decide)

/-- C3: For every existing product id and every partial update, a
successful update changes exactly the supplied fields (present and
non-empty, Python truthiness; a supplied code is stored upper-cased),
leaves every unsupplied field unchanged, always refreshes `updated_at`,
and leaves every other row of the store in place. -/
theorem C3_update_patch_frame
    (store st2 : List Product) (pid now : Nat) (data : ProductInput) (p : Product)
    (hp : p ∈ store) (hpid : p.id = pid)
    (hsucc : update_product store pid data now =
      (st2, UpdateResult.success "產品更新成功")) :
    st2.length = store.length ∧
    (∀ q ∈ store, q.id ≠ pid → q ∈ st2) ∧
    ∃ p' ∈ st2,
      p'.id = p.id ∧ p'.created_at = p.created_at ∧ p'.updated_at = now ∧
      p'.product_code = (if presentNonEmpty data.product_code then
        upperStr (data.product_code.getD "") else p.product_code) ∧
      p'.product_name = (if presentNonEmpty data.product_name then
        data.product_name.getD "" else p.product_name) ∧
      p'.hospital_name = (if presentNonEmpty data.hospital_name then
        data.hospital_name.getD "" else p.hospital_name) ∧
      p'.purchase_date = (if presentNonEmpty data.purchase_date then
        data.purchase_date.getD "" else p.purchase_date) := by
  simp only [update_product] at hsucc
  split at hsucc
  · simp at hsucc
  · split at hsucc
    · simp at hsucc
    · simp only [Prod.mk.injEq] at hsucc
      obtain ⟨rfl, -⟩ := hsucc
      refine ⟨List.length_map _ _, ?_, ?_⟩
      · intro q hq hqid
        rw [List.mem_map]
        refine ⟨q, hq, ?_⟩
        rw [if_neg]
        simpa using hqid
      · refine ⟨applyUpdate data now p, ?_, rfl, rfl, rfl, rfl, rfl, rfl, rfl⟩
        rw [List.mem_map]
        refine ⟨p, hp, ?_⟩
        rw [if_pos]
        simpa using hpid

/-- Witness for C3: updating only `hospital_name` of the single stored row. -/
theorem C3_update_patch_frame_witness :
    update_product [{ id := 1, product_code := "A1", product_name := "N",
                      hospital_name := "H", purchase_date := "2024-01-01",
                      created_at := 3, updated_at := 3 }] 1
        ⟨none, none, some "H2", none⟩ 7 =
      ([{ id := 1, product_code := "A1", product_name := "N",
          hospital_name := "H2", purchase_date := "2024-01-01",
          created_at := 3, updated_at := 7 }], .success "產品更新成功") ∧
    ∃ p' ∈ [{ id := 1, product_code := "A1", product_name := "N",
              hospital_name := "H2", purchase_date := "2024-01-01",
              created_at := 3, updated_at := 7 : Product }],
      p'.id = 1 ∧ p'.created_at = 3 ∧ p'.updated_at = 7 ∧
      p'.product_code = (if presentNonEmpty (none : Option String) then
        upperStr ((none : Option String).getD "") else "A1") ∧
      p'.product_name = (if presentNonEmpty (none : Option String) then
        (none : Option String).getD "" else "N") ∧
      p'.hospital_name = (if presentNonEmpty (some "H2") then
        (some "H2").getD "" else "H") ∧
      p'.purchase_date = (if presentNonEmpty (none : Option String) then
        (none : Option String).getD "" else "2024-01-01") := by
  refine ⟨by decide, ?_⟩
  have h := C3_update_patch_frame
    [{ id := 1, product_code := "A1", product_name := "N",
       hospital_name := "H", purchase_date := "2024-01-01",
       created_at := 3, updated_at := 3 }]
    [{ id := 1, product_code := "A1", product_name := "N",
       hospital_name := "H2", purchase_date := "2024-01-01",
       created_at := 3, updated_at := 7 }] 1 7 ⟨none, none, some "H2", none⟩
    { id := 1, product_code := "A1", product_name := "N",
      hospital_name := "H", purchase_date := "2024-01-01",
      created_at := 3, updated_at := 3 }
    (List.mem_singleton_self _) rfl (by decide)
  exact h.2.2

theorem insertRows_mem (vs : List (String × String × String × String)) :
    ∀ (store : List Product) (nextId now : Nat) (p : Product),
      p ∈ (insertRows store nextId now vs).1 →
      p ∈ store ∨ ∃ t ∈ vs, p.product_code = t.1 ∧ p.product_name = t.2.1 ∧
        p.hospital_name = t.2.2.1 ∧ p.purchase_date = t.2.2.2 ∧
        p.created_at = now ∧ p.updated_at = now := by
  induction vs with
  | nil => exact fun store nextId now p hp => Or.inl hp
  | cons t rest ih =>
    intro store nextId now p hp
    obtain ⟨c, n, h, d⟩ := t
    simp only [insertRows] at hp
    split at hp
    · rcases ih store nextId now p hp with h1 | ⟨u, hu, hus⟩
      · exact Or.inl h1
      · exact Or.inr ⟨u, List.mem_cons_of_mem _ hu, hus⟩
    · rcases ih _ (nextId + 1) now p hp with h1 | ⟨u, hu, hus⟩
      · rcases List.mem_append.1 h1 with h2 | h2
        · exact Or.inl h2
        · rcases List.mem_singleton.1 h2 with rfl
          exact Or.inr ⟨(c, n, h, d), List.mem_cons_self _ _,
            rfl, rfl, rfl, rfl, rfl, rfl⟩
      · exact Or.inr ⟨u, List.mem_cons_of_mem _ hu, hus⟩

theorem execValuesAux_mem (ps : Nat) (vs : List (String × String × String × String)) :
    ∀ (store : List Product) (nextId now room cnt : Nat) (p : Product),
      p ∈ (execValuesAux ps store nextId now room cnt vs).1 →
      p ∈ store ∨ ∃ t ∈ vs, p.product_code = t.1 ∧ p.product_name = t.2.1 ∧
        p.hospital_name = t.2.2.1 ∧ p.purchase_date = t.2.2.2 ∧
        p.created_at = now ∧ p.updated_at = now := by
  induction vs with
  | nil => exact fun store nextId now room cnt p hp => Or.inl hp
  | cons t rest ih =>
    intro store nextId now room cnt p hp
    obtain ⟨c, n, h, d⟩ := t
    simp only [execValuesAux] at hp
    split at hp
    · rcases ih store nextId now _ _ p hp with h1 | ⟨u, hu, hus⟩
      · exact Or.inl h1
      · exact Or.inr ⟨u, List.mem_cons_of_mem _ hu, hus⟩
    · rcases ih _ (nextId + 1) now _ _ p hp with h1 | ⟨u, hu, hus⟩
      · rcases List.mem_append.1 h1 with h2 | h2
        · exact Or.inl h2
        · rcases List.mem_singleton.1 h2 with rfl
          exact Or.inr ⟨(c, n, h, d), List.mem_cons_self _ _,
            rfl, rfl, rfl, rfl, rfl, rfl⟩
      · exact Or.inr ⟨u, List.mem_cons_of_mem _ hu, hus⟩

theorem execValuesAux_mono (ps : Nat) (vs : List (String × String × String × String)) :
    ∀ (store : List Product) (nextId now room cnt : Nat) (p : Product),
      p ∈ store → p ∈ (execValuesAux ps store nextId now room cnt vs).1 := by
  induction vs with
  | nil => exact fun store nextId now room cnt p hp => hp
  | cons t rest ih =>
    intro store nextId now room cnt p hp
    obtain ⟨c, n, h, d⟩ := t
    simp only [execValuesAux]
    split
    · exact ih store nextId now _ _ p hp
    · exact ih _ (nextId + 1) now _ _ p (List.mem_append_left _ hp)

theorem execValuesAux_eq_insertRows (ps : Nat)
    (vs : List (String × String × String × String)) :
    ∀ (store : List Product) (nextId now room cnt : Nat), vs.length ≤ room →
      execValuesAux ps store nextId now room cnt vs =
        ((insertRows store nextId now vs).1,
         cnt + (insertRows store nextId now vs).2) := by
  induction vs with
  | nil => intro store nextId now room cnt hroom; rfl
  | cons t rest ih =>
    intro store nextId now room cnt hroom
    obtain ⟨c, n, h, d⟩ := t
    have hr0 : room ≠ 0 := by
      simp only [List.length_cons] at hroom
      omega
    have hrest : rest.length ≤ room - 1 := by
      simp only [List.length_cons] at hroom
      omega
    simp only [execValuesAux, insertRows, if_neg hr0]
    split
    · exact ih store nextId now (room - 1) cnt hrest
    · rw [ih _ (nextId + 1) now (room - 1) (cnt + 1) hrest]
      refine congrArg _ ?_
      omega

theorem batchValidate_fst (rows : List ProductInput) : ∀ i,
    (batchValidate i rows).1 =
      (rows.filter (fun r => (rowMissingKey r).isNone)).map renderRow := by
  induction rows with
  | nil => intro i; rfl
  | cons r rest ih =>
    intro i
    simp only [batchValidate]
    cases hk : rowMissingKey r with
    | some k => simp [List.filter_cons, hk, ih (i + 1)]
    | none => simp [List.filter_cons, hk, ih (i + 1)]

theorem batch_add_products_preserves_norm (store : List Product)
    (nextId now : Nat) (rows : List ProductInput)
    (hnorm : ∀ p ∈ store, upperStr p.product_code = p.product_code) :
    ∀ p ∈ (batch_add_products store nextId now rows).1,
      upperStr p.product_code = p.product_code := by
  intro p hp
  simp only [batch_add_products, execute_values] at hp
  split at hp
  · exact hnorm p hp
  · split at hp
    · exact hnorm p hp
    · rcases execValuesAux_mem 500 _ store nextId now 500 0 p hp with h1 | ⟨u, hu, hus⟩
      · exact hnorm p h1
      · rw [batchValidate_fst rows 0] at hu
        obtain ⟨r, -, hr⟩ := List.mem_map.1 hu
        rw [hus.1, ← hr]
        exact upperStr_idem _

/-- C4: Every operation that accepts a purchase_date (create, update,
batchCreate) accepts it in `YYYY-MM-DD` or `YYYY/MM/DD` form and the
value the `DATE` column stores (and every response serves) is in the
`-`-separated ISO form and never contains `/`.  The column
(`pgDateStored`) accepts either separator and is indifferent to the
app-side `replace('/', '-')`: create and batchCreate hand it the
`-`-normalized string, update hands it the raw request string, and the
column canonicalizes both to the same slash-free value. -/
theorem C4_date_normalization :
    (∀ (y1 y2 y3 y4 m1 m2 d1 d2 : Char),
      (y1.isDigit && y2.isDigit && y3.isDigit && y4.isDigit &&
       m1.isDigit && m2.isDigit && d1.isDigit && d2.isDigit) = true →
      pgDateStored ⟨[y1, y2, y3, y4, '-', m1, m2, '-', d1, d2]⟩ =
        some ⟨[y1, y2, y3, y4, '-', m1, m2, '-', d1, d2]⟩ ∧
      pgDateStored ⟨[y1, y2, y3, y4, '/', m1, m2, '/', d1, d2]⟩ =
        some ⟨[y1, y2, y3, y4, '-', m1, m2, '-', d1, d2]⟩) ∧
    (∀ s t : String, pgDateStored s = some t → '/' ∉ t.data) ∧
    (∀ s : String, pgDateStored (normDate s) = pgDateStored s) ∧
    (∀ (store st2 : List Product) (nextId now newId : Nat) (data : ProductInput)
      (d msg : String), data.purchase_date = some d →
      add_product store nextId now data = (st2, AddResult.created newId msg) →
      ∀ p ∈ st2, p ∈ store ∨
        (p.purchase_date = normDate d ∧
         pgDateStored p.purchase_date = pgDateStored d)) ∧
    (∀ (store : List Product) (nextId now : Nat) (rows : List ProductInput),
      ∀ p ∈ (batch_add_products store nextId now rows).1,
        p ∈ store ∨ ∃ s0, p.purchase_date = normDate s0 ∧
          pgDateStored p.purchase_date = pgDateStored s0) ∧
    (∀ (store st2 : List Product) (pid now : Nat) (data : ProductInput)
      (d msg : String), data.purchase_date = some d → d ≠ "" →
      update_product store pid data now = (st2, UpdateResult.success msg) →
      ∀ p ∈ store, p.id = pid → ∃ p' ∈ st2, p'.purchase_date = d ∧
        pgDateStored p'.purchase_date = pgDateStored (normDate d)) := by
  refine ⟨?_, pgDateStored_no_slash, pgDateStored_normDate, ?_, ?_, ?_⟩
  · intro y1 y2 y3 y4 m1 m2 d1 d2 hdig
    simp only [Bool.and_eq_true] at hdig
    obtain ⟨⟨⟨⟨⟨⟨⟨h1, h2⟩, h3⟩, h4⟩, h5⟩, h6⟩, h7⟩, h8⟩ := hdig
    have hnd1 : normDate ⟨[y1, y2, y3, y4, '-', m1, m2, '-', d1, d2]⟩ =
        ⟨[y1, y2, y3, y4, '-', m1, m2, '-', d1, d2]⟩ := by
      unfold normDate
      congr 1
      simp only [List.map_cons, List.map_nil]
      rw [slashMap_of_digit h1, slashMap_of_digit h2, slashMap_of_digit h3,
        slashMap_of_digit h4, slashMap_of_digit h5, slashMap_of_digit h6,
        slashMap_of_digit h7, slashMap_of_digit h8]
      simp
    have hnd2 : normDate ⟨[y1, y2, y3, y4, '/', m1, m2, '/', d1, d2]⟩ =
        ⟨[y1, y2, y3, y4, '-', m1, m2, '-', d1, d2]⟩ := by
      unfold normDate
      congr 1
      simp only [List.map_cons, List.map_nil]
      rw [slashMap_of_digit h1, slashMap_of_digit h2, slashMap_of_digit h3,
        slashMap_of_digit h4, slashMap_of_digit h5, slashMap_of_digit h6,
        slashMap_of_digit h7, slashMap_of_digit h8]
      simp
    constructor
    · unfold pgDateStored
      rw [hnd1]
      simp only [h1, h2, h3, h4, h5, h6, h7, h8]
      rfl
    · unfold pgDateStored
      rw [hnd2]
      simp only [h1, h2, h3, h4, h5, h6, h7, h8]
      rfl
  · intro store st2 nextId now newId data d msg hd hsucc p hp
    simp only [add_product] at hsucc
    split at hsucc
    · simp at hsucc
    · split at hsucc
      · simp at hsucc
      · split at hsucc
        · simp at hsucc
        · split at hsucc
          · simp at hsucc
          · split at hsucc
            · simp at hsucc
            · simp only [Prod.mk.injEq] at hsucc
              obtain ⟨rfl, -⟩ := hsucc
              rcases List.mem_append.1 hp with h1 | h1
              · exact Or.inl h1
              · rcases List.mem_singleton.1 h1 with rfl
                rw [hd, Option.getD_some]
                exact Or.inr ⟨rfl, pgDateStored_normDate d⟩
  · intro store nextId now rows p hp
    simp only [batch_add_products, execute_values] at hp
    split at hp
    · exact Or.inl hp
    · split at hp
      · exact Or.inl hp
      · rcases execValuesAux_mem 500 _ store nextId now 500 0 p hp with
          h1 | ⟨u, hu, hus⟩
        · exact Or.inl h1
        · rw [batchValidate_fst rows 0] at hu
          obtain ⟨r, -, hr⟩ := List.mem_map.1 hu
          refine Or.inr ⟨r.purchase_date.getD "", ?_, ?_⟩
          · rw [hus.2.2.2.1, ← hr]
            rfl
          · rw [hus.2.2.2.1, ← hr]
            exact pgDateStored_normDate _
  · intro store st2 pid now data d msg hd hd0 hsucc p hp hpid
    simp only [update_product] at hsucc
    split at hsucc
    · simp at hsucc
    · split at hsucc
      · simp at hsucc
      · simp only [Prod.mk.injEq] at hsucc
        obtain ⟨rfl, -⟩ := hsucc
        refine ⟨applyUpdate data now p, ?_, ?_, ?_⟩
        · rw [List.mem_map]
          refine ⟨p, hp, ?_⟩
          rw [if_pos]
          simpa using hpid
        · simp only [applyUpdate]
          rw [if_pos]
          · rw [hd, Option.getD_some]
          · rw [hd]
            simpa [presentNonEmpty] using hd0
        · have hraw : (applyUpdate data now p).purchase_date = d := by
            simp only [applyUpdate]
            rw [if_pos]
            · rw [hd, Option.getD_some]
            · rw [hd]
              simpa [presentNonEmpty] using hd0
          rw [hraw]
          exact (pgDateStored_normDate d).symm

/-- Witness for C4: both separator forms of the same date are accepted
and stored as `2024-01-02`; an update supplied with the `/` form passes
the raw string to the column, which stores the same slash-free value. -/
theorem C4_date_normalization_witness :
    (pgDateStored "2024-01-02" = some "2024-01-02" ∧
     pgDateStored "2024/01/02" = some "2024-01-02") ∧
    ('/' ∉ ("2024-01-02" : String).data) ∧
    (∃ p' ∈ (update_product [{ id := 1, product_code := "A1", product_name := "N",
                               hospital_name := "H", purchase_date := "2024-01-01",
                               created_at := 0, updated_at := 0 }] 1
        ⟨none, none, none, some "2024/01/02"⟩ 5).1,
      p'.purchase_date = "2024/01/02" ∧
      pgDateStored p'.purchase_date = pgDateStored (normDate "2024/01/02")) := by
  refine ⟨C4_date_normalization.1 '2' '0' '2' '4' '0' '1' '0' '2' (by decide),
    ?_, ?_⟩
  · exact C4_date_normalization.2.1 "2024-01-02" "2024-01-02" (by decide)
  · exact C4_date_normalization.2.2.2.2.2
      [{ id := 1, product_code := "A1", product_name := "N",
         hospital_name := "H", purchase_date := "2024-01-01",
         created_at := 0, updated_at := 0 }] _ 1 5
      ⟨none, none, none, some "2024/01/02"⟩ "2024/01/02" "產品更新成功"
      rfl (by decide) rfl
      { id := 1, product_code := "A1", product_name := "N",
        hospital_name := "H", purchase_date := "2024-01-01",
        created_at := 0, updated_at := 0 }
      (List.mem_singleton_self _) rfl


theorem insertRows_mono (vs : List (String × String × String × String)) :
    ∀ (store : List Product) (nextId now : Nat) (p : Product),
      p ∈ store → p ∈ (insertRows store nextId now vs).1 := by
  induction vs with
  | nil => exact fun store nextId now p hp => hp
  | cons t rest ih =>
    intro store nextId now p hp
    obtain ⟨c, n, h, d⟩ := t
    simp only [insertRows]
    split
    · exact ih store nextId now p hp
    · exact ih _ (nextId + 1) now p (List.mem_append_left _ hp)

theorem insertRows_length (vs : List (String × String × String × String)) :
    ∀ (store : List Product) (nextId now : Nat),
      (insertRows store nextId now vs).1.length =
        store.length + (insertRows store nextId now vs).2 := by
  induction vs with
  | nil => intro store nextId now; rfl
  | cons t rest ih =>
    intro store nextId now
    obtain ⟨c, n, h, d⟩ := t
    simp only [insertRows]
    split
    · exact ih store nextId now
    · rw [ih _ (nextId + 1) now]
      simp only [List.length_append, List.length_singleton]
      omega

theorem insertRows_count_le (vs : List (String × String × String × String)) :
    ∀ (store : List Product) (nextId now : Nat),
      (insertRows store nextId now vs).2 ≤ vs.length := by
  induction vs with
  | nil => intro store nextId now; exact Nat.le_refl 0
  | cons t rest ih =>
    intro store nextId now
    obtain ⟨c, n, h, d⟩ := t
    simp only [insertRows, List.length_cons]
    split
    · exact Nat.le_succ_of_le (ih store nextId now)
    · exact Nat.succ_le_succ (ih _ (nextId + 1) now)

theorem insertRows_code_present (vs : List (String × String × String × String)) :
    ∀ (store : List Product) (nextId now : Nat) (t : String × String × String × String),
      t ∈ vs → hasCode (insertRows store nextId now vs).1 t.1 = true := by
  induction vs with
  | nil => intro store nextId now t ht; exact absurd ht (List.not_mem_nil t)
  | cons u rest ih =>
    intro store nextId now t ht
    obtain ⟨c, n, h, d⟩ := u
    simp only [insertRows]
    rcases List.mem_cons.1 ht with rfl | ht2
    · split
      · next hc =>
        rw [hasCode_iff] at hc ⊢
        obtain ⟨p, hp, hpc⟩ := hc
        exact ⟨p, insertRows_mono rest store nextId now p hp, hpc⟩
      · rw [hasCode_iff]
        refine ⟨_, insertRows_mono rest _ (nextId + 1) now _
          (List.mem_append_right _ (List.mem_singleton_self _)), rfl⟩
    · split
      · exact ih store nextId now t ht2
      · exact ih _ (nextId + 1) now t ht2

theorem batchValidate_err_mem (rows : List ProductInput) : ∀ (i j : Nat)
    (hj : j < rows.length) (key : String),
    rowMissingKey (rows.get ⟨j, hj⟩) = some key →
    ("第 " ++ toString (i + j + 1) ++ " 筆: 缺少欄位 " ++ key) ∈
      (batchValidate i rows).2 := by
  induction rows with
  | nil => intro i j hj; exact absurd hj (Nat.not_lt_zero j)
  | cons r rest ih =>
    intro i j hj key hkey
    cases j with
    | zero =>
      simp only [List.get] at hkey
      simp only [batchValidate, hkey]
      exact List.mem_cons_self _ _
    | succ j' =>
      simp only [List.get] at hkey
      have hj' : j' < rest.length := Nat.lt_of_succ_lt_succ hj
      have hmem := ih (i + 1) j' hj' key hkey
      have harith : i + 1 + j' + 1 = i + (j' + 1) + 1 := by omega
      rw [harith] at hmem
      simp only [batchValidate]
      cases hk : rowMissingKey r with
      | some k => exact List.mem_cons_of_mem _ hmem
      | none => exact hmem

theorem batchValidate_err_length (rows : List ProductInput) : ∀ i,
    (batchValidate i rows).2.length =
      (rows.filter (fun r => (rowMissingKey r).isSome)).length := by
  induction rows with
  | nil => intro i; rfl
  | cons r rest ih =>
    intro i
    simp only [batchValidate]
    cases hk : rowMissingKey r with
    | some k => simp [List.filter_cons, hk, ih (i + 1)]
    | none => simp [List.filter_cons, hk, ih (i + 1)]

/-- C5 (amended): For every batch whose valid rows fit in one
`execute_values` page (at most 500), rows failing per-row validation are
reported with a per-row message and do not block the remaining rows;
valid rows whose codes are already present are skipped, counted, and
reported; the response reports the number of inserted rows
(`success_count`), which equals the growth of the store; previously
stored rows survive; and every valid row's code is present afterwards
(inserted, or skipped because it already existed).  Beyond 500 valid
rows `cursor.rowcount` reflects only the last page and the reported
counts are wrong (see the counterexample). -/
theorem C5_batch_reporting
    (store : List Product) (nextId now : Nat) (rows : List ProductInput)
    (hne : rows ≠ []) (hv : (batchValidate 0 rows).1 ≠ [])
    (hv500 : (batchValidate 0 rows).1.length ≤ 500) :
    ∃ (k : Nat) (msg : String) (errs2 : List String),
      (batch_add_products store nextId now rows).2 = .done msg k errs2 ∧
      (batch_add_products store nextId now rows).1.length = store.length + k ∧
      k ≤ (batchValidate 0 rows).1.length ∧
      (∀ t ∈ (batchValidate 0 rows).1,
        hasCode (batch_add_products store nextId now rows).1 t.1 = true) ∧
      (∀ p ∈ store, p ∈ (batch_add_products store nextId now rows).1) ∧
      (∀ (j : Nat) (hj : j < rows.length) (key : String),
        rowMissingKey (rows.get ⟨j, hj⟩) = some key →
        ("第 " ++ toString (j + 1) ++ " 筆: 缺少欄位 " ++ key) ∈ errs2) ∧
      (batchValidate 0 rows).2.length =
        (rows.filter (fun r => (rowMissingKey r).isSome)).length ∧
      ((batchValidate 0 rows).1.length - k > 0 →
        (toString ((batchValidate 0 rows).1.length - k) ++
          " 筆編碼已存在，已略過") ∈ errs2) := by
  have hne' : rows.isEmpty = false := by
    cases rows with
    | nil => exact absurd rfl hne
    | cons a l => rfl
  have hv' : (batchValidate 0 rows).1.isEmpty = false := by
    cases hvv : (batchValidate 0 rows).1 with
    | nil => exact absurd hvv hv
    | cons a l => rfl
  have hEV : execute_values store nextId now (batchValidate 0 rows).1 =
      ((insertRows store nextId now (batchValidate 0 rows).1).1,
       (insertRows store nextId now (batchValidate 0 rows).1).2) := by
    have hb := execValuesAux_eq_insertRows 500 (batchValidate 0 rows).1
      store nextId now 500 0 hv500
    simpa [execute_values] using hb
  refine ⟨(insertRows store nextId now (batchValidate 0 rows).1).2,
    "成功新增 " ++ toString (insertRows store nextId now (batchValidate 0 rows).1).2 ++
      " 筆，略過 " ++ toString ((batchValidate 0 rows).1.length -
        (insertRows store nextId now (batchValidate 0 rows).1).2) ++ " 筆重複",
    (if (batchValidate 0 rows).1.length -
        (insertRows store nextId now (batchValidate 0 rows).1).2 > 0 then
      (batchValidate 0 rows).2 ++ [toString ((batchValidate 0 rows).1.length -
        (insertRows store nextId now (batchValidate 0 rows).1).2) ++ " 筆編碼已存在，已略過"]
    else (batchValidate 0 rows).2),
    ?_, ?_, ?_, ?_, ?_, ?_, ?_, ?_⟩
  · simp only [batch_add_products, hne', hv', Bool.false_eq_true, if_false]
    rw [hEV]
  · simp only [batch_add_products, hne', hv', Bool.false_eq_true, if_false]
    rw [hEV]
    exact insertRows_length _ store nextId now
  · exact insertRows_count_le _ store nextId now
  · intro t ht
    simp only [batch_add_products, hne', hv', Bool.false_eq_true, if_false]
    rw [hEV]
    exact insertRows_code_present _ store nextId now t ht
  · intro p hp
    simp only [batch_add_products, hne', hv', Bool.false_eq_true, if_false]
    rw [hEV]
    exact insertRows_mono _ store nextId now p hp
  · intro j hj key hkey
    have hmem := batchValidate_err_mem rows 0 j hj key hkey
    rw [Nat.zero_add] at hmem
    split
    · exact List.mem_append_left _ hmem
    · exact hmem
  · exact batchValidate_err_length rows 0
  · intro hdup
    rw [if_pos hdup]
    exact List.mem_append_right _ (List.mem_singleton_self _)

/-- Witness for C5: the spec's three-row example — row 1 fresh, row 2 a
case-variant duplicate of the stored code, row 3 missing
`hospital_name` — yields `success_count = 1`, one validation message, one
duplicate-skip note, and persists row 1. -/
theorem C5_batch_reporting_witness :
    batch_add_products
        [{ id := 1, product_code := "B2", product_name := "N",
           hospital_name := "H", purchase_date := "2024-01-01",
           created_at := 0, updated_at := 0 }] 10 9
        [⟨some "a1", some "n1", some "h1", some "2024-02-01"⟩,
         ⟨some "b2", some "n2", some "h2", some "2024-02-02"⟩,
         ⟨some "c3", some "n3", none, some "2024-02-03"⟩] =
      ([{ id := 1, product_code := "B2", product_name := "N",
          hospital_name := "H", purchase_date := "2024-01-01",
          created_at := 0, updated_at := 0 },
        { id := 10, product_code := "A1", product_name := "n1",
          hospital_name := "h1", purchase_date := "2024-02-01",
          created_at := 9, updated_at := 9 }],
       .done "成功新增 1 筆，略過 1 筆重複" 1
         ["第 3 筆: 缺少欄位 'hospital_name'", "1 筆編碼已存在，已略過"]) ∧
    (∃ (k : Nat) (msg : String) (errs2 : List String),
      (batch_add_products
        [{ id := 1, product_code := "B2", product_name := "N",
           hospital_name := "H", purchase_date := "2024-01-01",
           created_at := 0, updated_at := 0 }] 10 9
        [⟨some "a1", some "n1", some "h1", some "2024-02-01"⟩,
         ⟨some "b2", some "n2", some "h2", some "2024-02-02"⟩,
         ⟨some "c3", some "n3", none, some "2024-02-03"⟩]).2 = .done msg k errs2) := by
  constructor
  · decide
  · obtain ⟨k, msg, errs2, h1, -⟩ := C5_batch_reporting
      [{ id := 1, product_code := "B2", product_name := "N",
         hospital_name := "H", purchase_date := "2024-01-01",
         created_at := 0, updated_at := 0 }] 10 9
      [⟨some "a1", some "n1", some "h1", some "2024-02-01"⟩,
       ⟨some "b2", some "n2", some "h2", some "2024-02-02"⟩,
       ⟨some "c3", some "n3", none, some "2024-02-03"⟩]
      (by decide) (by decide) (by decide)
    exact ⟨k, msg, errs2, h1⟩

/-- C5 counterexample: a batch of 501 copies of the same valid row.  One
row is actually inserted (the store grows from 0 to 1 record), but
`cursor.rowcount` after the paged `execute_values` reflects only the
last 500-row page, so the response reports `success_count = 0` and
claims 501 duplicates were skipped. -/
theorem C5_counterexample :
    (batch_add_products [] 1 5
        (List.replicate 501
          ⟨some "x", some "n", some "h", some "2024-01-01"⟩)).1.length = 1 ∧
    (batch_add_products [] 1 5
        (List.replicate 501
          ⟨some "x", some "n", some "h", some "2024-01-01"⟩)).2 =
      BatchResult.done "成功新增 0 筆，略過 501 筆重複" 0
        ["501 筆編碼已存在，已略過"] := by decide

/-- C6: Every protected operation (list, create, update, delete,
batchCreate, stats) invoked with a session lacking `admin_id` responds
with the fixed 401 body and leaves the store unchanged; the guarded
result is independent of the wrapped handler, so the handler is not
invoked. -/
theorem C6_auth_gate (sess : Session) (hno : sess.admin_id = none) :
    (∀ (st : List Product) (a : Nat × Nat × String),
      products_get_route sess st a = (st, .unauthorized 401 false "請先登入")) ∧
    (∀ (st : List Product) (a : Nat × Nat × ProductInput),
      products_post_route sess st a = (st, .unauthorized 401 false "請先登入")) ∧
    (∀ (st : List Product) (a : Nat × ProductInput × Nat),
      product_put_route sess st a = (st, .unauthorized 401 false "請先登入")) ∧
    (∀ (st : List Product) (pid : Nat),
      product_delete_route sess st pid = (st, .unauthorized 401 false "請先登入")) ∧
    (∀ (st : List Product) (a : Nat × Nat × List ProductInput),
      products_batch_route sess st a = (st, .unauthorized 401 false "請先登入")) ∧
    (∀ (st : List Product) (u : Unit),
      stats_route sess st u = (st, .unauthorized 401 false "請先登入")) ∧
    (∀ (σ α ρ : Type) (f g : Session → σ → α → σ × ρ) (s : σ) (a : α),
      login_required f sess s a = login_required g sess s a ∧
      (login_required f sess s a).1 = s) := by
  have key : ∀ (σ α ρ : Type) (f : Session → σ → α → σ × ρ) (s : σ) (a : α),
      login_required f sess s a = (s, .unauthorized 401 false "請先登入") := by
    intro σ α ρ f s a
    unfold login_required
    rw [hno]
  exact ⟨fun st a => key _ _ _ _ st a,
         fun st a => key _ _ _ _ st a,
         fun st a => key _ _ _ _ st a,
         fun st pid => key _ _ _ _ st pid,
         fun st a => key _ _ _ _ st a,
         fun st u => key _ _ _ _ st u,
         fun σ α ρ f g s a =>
           ⟨(key σ α ρ f s a).trans (key σ α ρ g s a).symm,
            by rw [key σ α ρ f s a]⟩⟩

/-- Witness for C6: an anonymous session hitting the create route leaves
the empty store empty and receives the 401 body. -/
theorem C6_auth_gate_witness :
    (Session.mk none none).admin_id = none ∧
    products_post_route ⟨none, none⟩ []
        (1, 0, ⟨some "a", some "b", some "c", some "d"⟩) =
      ([], .unauthorized 401 false "請先登入") :=
  ⟨rfl, (C6_auth_gate ⟨none, none⟩ rfl).2.1 []
    (1, 0, ⟨some "a", some "b", some "c", some "d"⟩)⟩

/-- C7: For positive `page` and `per_page`, list reports the matching row
count as `total`, `total_pages` as the ceiling of `total / per_page`, and
returns as `data` the page slice of the matching rows ordered by
`created_at` descending (a sorted permutation of the matching rows); a
page beyond the last yields an empty item list. -/
theorem C7_pagination
    (store : List Product) (page per_page : Nat) (search : String)
    (hpage : 1 ≤ page) (hper : 1 ≤ per_page) :
    (get_all_products store page per_page search).total =
      (matchFilter store search).length ∧
    (get_all_products store page per_page search).total_pages =
      (matchFilter store search).length ⌈/⌉ per_page ∧
    (get_all_products store page per_page search).data =
      ((ordByCreatedDesc (matchFilter store search)).drop
        ((page - 1) * per_page)).take per_page ∧
    (ordByCreatedDesc (matchFilter store search)).Perm (matchFilter store search) ∧
    (ordByCreatedDesc (matchFilter store search)).Sorted createdDesc ∧
    (page > (get_all_products store page per_page search).total_pages →
      (get_all_products store page per_page search).data = []) := by
  refine ⟨rfl, (Nat.ceilDiv_eq_add_pred_div _ _).symm, rfl,
    List.perm_insertionSort _ _, List.sorted_insertionSort _ _, ?_⟩
  intro hbig
  have htp : (get_all_products store page per_page search).total_pages =
      (matchFilter store search).length ⌈/⌉ per_page :=
    (Nat.ceilDiv_eq_add_pred_div _ _).symm
  rw [htp] at hbig
  have hceil : (matchFilter store search).length ≤
      ((matchFilter store search).length ⌈/⌉ per_page) * per_page := by
    have h := (ceilDiv_le_iff_le_smul hper
      (b := (matchFilter store search).length)
      (c := (matchFilter store search).length ⌈/⌉ per_page)).1 (le_refl _)
    simpa [smul_eq_mul, Nat.mul_comm] using h
  have hlen : (ordByCreatedDesc (matchFilter store search)).length =
      (matchFilter store search).length :=
    (List.perm_insertionSort _ _).length_eq
  have hdrop : (ordByCreatedDesc (matchFilter store search)).length ≤
      (page - 1) * per_page := by
    rw [hlen]
    calc (matchFilter store search).length
        ≤ ((matchFilter store search).length ⌈/⌉ per_page) * per_page := hceil
      _ ≤ (page - 1) * per_page := by
          apply Nat.mul_le_mul_right
          omega
  show ((ordByCreatedDesc (matchFilter store search)).drop
    ((page - 1) * per_page)).take per_page = []
  rw [List.drop_eq_nil_of_le hdrop, List.take_nil]

/-- Sample product used by the pagination witness. -/
def mkProd (i : Nat) : Product :=
  { id := i, product_code := "P" ++ toString i, product_name := "N",
    hospital_name := "H", purchase_date := "2024-01-01",
    created_at := 100 - i, updated_at := 100 - i }

/-- Twenty-five sample products for the pagination witness. -/
def store25 : List Product := (List.range 25).map mkProd

/-- Witness for C7: 25 products with `per_page = 10`; page 3 holds 5
items, `total = 25`, `total_pages = 3`, and page 4 is empty. -/
theorem C7_pagination_witness :
    (1 ≤ 3 ∧ 1 ≤ 10 ∧
      (get_all_products store25 3 10 "").total = (matchFilter store25 "").length ∧
      (get_all_products store25 3 10 "").total_pages =
        (matchFilter store25 "").length ⌈/⌉ 10) ∧
    (get_all_products store25 3 10 "").total = 25 ∧
    (get_all_products store25 3 10 "").total_pages = 3 ∧
    (get_all_products store25 3 10 "").data.length = 5 ∧
    (get_all_products store25 4 10 "").data = [] := by
  have h := C7_pagination store25 3 10 "" (by decide) (by decide)
  exact ⟨⟨by decide, by decide, h.1, h.2.1⟩, by decide, by decide, by decide, by decide⟩

/-- C8: A login attempt with an unknown username and one with a known
username but wrong password produce the identical response — the same 401
status and the same body — and neither changes the session, so the two
failure causes are not distinguishable from the response. -/
theorem C8_login_failure_indistinguishable
    (admins : List Admin) (check : String → String → Bool)
    (u1 p1 u2 p2 : String) (sess1 sess2 : Session)
    (h1 : stripStr u1 ≠ "") (hp1 : p1 ≠ "")
    (h2 : stripStr u2 ≠ "") (hp2 : p2 ≠ "")
    (hunknown : admins.find? (fun a => a.username == stripStr u1) = none)
    (a : Admin)
    (hknown : admins.find? (fun a => a.username == stripStr u2) = some a)
    (hwrong : check a.password_hash p2 = false) :
    api_login admins check u1 p1 sess1 =
      (sess1, ⟨401, false, "帳號或密碼錯誤"⟩) ∧
    api_login admins check u2 p2 sess2 =
      (sess2, ⟨401, false, "帳號或密碼錯誤"⟩) ∧
    (api_login admins check u1 p1 sess1).2 =
      (api_login admins check u2 p2 sess2).2 := by
  have e1 : (stripStr u1 == "") = false := beq_eq_false_iff_ne.2 h1
  have ep1 : (p1 == "") = false := beq_eq_false_iff_ne.2 hp1
  have e2 : (stripStr u2 == "") = false := beq_eq_false_iff_ne.2 h2
  have ep2 : (p2 == "") = false := beq_eq_false_iff_ne.2 hp2
  have hfst : api_login admins check u1 p1 sess1 =
      (sess1, ⟨401, false, "帳號或密碼錯誤"⟩) := by
    simp only [api_login, e1, ep1, Bool.or_self, Bool.false_eq_true, if_false,
      hunknown]
  have hsnd : api_login admins check u2 p2 sess2 =
      (sess2, ⟨401, false, "帳號或密碼錯誤"⟩) := by
    simp only [api_login, e2, ep2, Bool.or_self, Bool.false_eq_true, if_false,
      hknown, hwrong]
  exact ⟨hfst, hsnd, by rw [hfst, hsnd]⟩

/-- Witness for C8: one admin `admin`; the attempts (`nobody`, `x`) and
(`admin`, `wrong`) both yield the identical 401 response. -/
theorem C8_login_failure_indistinguishable_witness :
    api_login [⟨1, "admin", "HASH"⟩] (fun h p => h == p) "nobody" "x"
        ⟨none, none⟩ =
      (⟨none, none⟩, ⟨401, false, "帳號或密碼錯誤"⟩) ∧
    api_login [⟨1, "admin", "HASH"⟩] (fun h p => h == p) "admin" "wrong"
        ⟨none, none⟩ =
      (⟨none, none⟩, ⟨401, false, "帳號或密碼錯誤"⟩) ∧
    (api_login [⟨1, "admin", "HASH"⟩] (fun h p => h == p) "nobody" "x"
        ⟨none, none⟩).2 =
      (api_login [⟨1, "admin", "HASH"⟩] (fun h p => h == p) "admin" "wrong"
        ⟨none, none⟩).2 :=
  C8_login_failure_indistinguishable [⟨1, "admin", "HASH"⟩] (fun h p => h == p)
    "nobody" "x" "admin" "wrong" ⟨none, none⟩ ⟨none, none⟩
    (by decide) (by decide) (by decide) (by decide) (by decide)
    ⟨1, "admin", "HASH"⟩ (by decide) (by decide)

/-- C9: verify performs a case-insensitive exact match on product_code;
when a product is found the response carries exactly the four display
fields (`VerifyData`), whose value depends only on those four columns and
never on the internal id, `created_at`, or `updated_at`.  `hnorm` and
`huniq` are the storage invariants (codes upper-cased and unique). -/
theorem C9_verify_shape
    (store : List Product) (code : String)
    (hnorm : ∀ p ∈ store, upperStr p.product_code = p.product_code)
    (huniq : ∀ p ∈ store, ∀ q ∈ store, p.product_code = q.product_code → p = q) :
    ((∃ d, verify_product store code = .found d) ↔
      ∃ p ∈ store, upperStr p.product_code = upperStr code) ∧
    (∀ p ∈ store, upperStr p.product_code = upperStr code →
      verify_product store code =
        .found ⟨p.product_code, p.product_name, p.hospital_name,
                p.purchase_date⟩) ∧
    (∀ p q : Product, p.product_code = q.product_code →
      p.product_name = q.product_name → p.hospital_name = q.hospital_name →
      p.purchase_date = q.purchase_date → displayData p = displayData q) := by
  refine ⟨?_, ?_, ?_⟩
  · constructor
    · rintro ⟨d, hd⟩
      unfold verify_product at hd
      cases hf : store.find? (fun p => upperStr p.product_code == upperStr code) with
      | none => rw [hf] at hd; exact absurd hd (by simp)
      | some p0 =>
        refine ⟨p0, List.mem_of_find?_eq_some hf, ?_⟩
        have := List.find?_some hf
        simpa using this
    · rintro ⟨p, hp, hpc⟩
      have hsome : (store.find?
          (fun q => upperStr q.product_code == upperStr code)).isSome := by
        rw [List.find?_isSome]
        exact ⟨p, hp, by simpa using hpc⟩
      obtain ⟨p0, hp0⟩ := Option.isSome_iff_exists.1 hsome
      exact ⟨displayData p0, by unfold verify_product; rw [hp0]⟩
  · intro p hp hpc
    have hsome : (store.find?
        (fun q => upperStr q.product_code == upperStr code)).isSome := by
      rw [List.find?_isSome]
      exact ⟨p, hp, by simpa using hpc⟩
    obtain ⟨p0, hp0⟩ := Option.isSome_iff_exists.1 hsome
    have hp0mem : p0 ∈ store := List.mem_of_find?_eq_some hp0
    have hp0c : upperStr p0.product_code = upperStr code := by
      have := List.find?_some hp0
      simpa using this
    have hpq : p = p0 := by
      apply huniq p hp p0 hp0mem
      rw [← hnorm p hp, ← hnorm p0 hp0mem, hpc, hp0c]
    unfold verify_product
    rw [hp0, ← hpq]
    rfl
  · intro p q h1 h2 h3 h4
    unfold displayData
    rw [h1, h2, h3, h4]

/-- Witness for C9: a one-row store with code `"AB"` queried as `"ab"`. -/
theorem C9_verify_shape_witness :
    ((∃ d, verify_product [{ id := 7, product_code := "AB", product_name := "N",
                             hospital_name := "H", purchase_date := "2024-01-01",
                             created_at := 1, updated_at := 2 }] "ab" = .found d) ↔
      ∃ p ∈ [{ id := 7, product_code := "AB", product_name := "N",
               hospital_name := "H", purchase_date := "2024-01-01",
               created_at := 1, updated_at := 2 : Product }],
        upperStr p.product_code = upperStr "ab") ∧
    verify_product [{ id := 7, product_code := "AB", product_name := "N",
                      hospital_name := "H", purchase_date := "2024-01-01",
                      created_at := 1, updated_at := 2 }] "ab" =
      .found ⟨"AB", "N", "H", "2024-01-01"⟩ := by
  have h := C9_verify_shape
    [{ id := 7, product_code := "AB", product_name := "N",
       hospital_name := "H", purchase_date := "2024-01-01",
       created_at := 1, updated_at := 2 }] "ab"
    (by decide) (by decide)
  exact ⟨h.1, h.2.1 _ (List.mem_singleton_self _) (by decide)⟩

/-- C10: A batch row with all four keys present but empty values passes
the batch pre-validation (which detects only missing keys) and is
submitted to storage, while the single create rejects the same fields
with a 400 validation error — batch pre-validation, unlike create, does
not reject empty values. -/
theorem C10_batch_accepts_empty_values (c n h d : String) :
    rowMissingKey ⟨some c, some n, some h, some d⟩ = none ∧
    renderRow ⟨some c, some n, some h, some d⟩ = (upperStr c, n, h, normDate d) ∧
    (∀ (i : Nat) (rows : List ProductInput),
      (batchValidate i (⟨some c, some n, some h, some d⟩ :: rows)).1 =
        renderRow ⟨some c, some n, some h, some d⟩ ::
          (batchValidate (i + 1) rows).1) ∧
    (∀ (store : List Product) (nextId now : Nat),
      hasCode store (upperStr c) = false →
      (batch_add_products store nextId now
          [⟨some c, some n, some h, some d⟩]).1 =
        store ++ [{ id := nextId, product_code := upperStr c,
                    product_name := n, hospital_name := h,
                    purchase_date := normDate d,
                    created_at := now, updated_at := now }]) ∧
    (h = "" → c ≠ "" → n ≠ "" →
      ∀ (store : List Product) (nextId now : Nat),
        add_product store nextId now ⟨some c, some n, some h, some d⟩ =
          (store, .validationError "缺少必要欄位: hospital_name")) := by
  refine ⟨rfl, rfl, fun i rows => rfl, ?_, ?_⟩
  · intro store nextId now hfresh
    simp only [batch_add_products, execute_values, execValuesAux, batchValidate,
      rowMissingKey, renderRow, hfresh, Option.getD_some, Option.isNone_some,
      Bool.false_eq_true, if_false, List.isEmpty_cons]
  · intro hh hc hn store nextId now
    have ec : presentNonEmpty (some c) = true := by
      simpa [presentNonEmpty] using hc
    have en : presentNonEmpty (some n) = true := by
      simpa [presentNonEmpty] using hn
    have eh : presentNonEmpty (some h) = false := by
      simp [presentNonEmpty, hh]
    simp only [add_product, ec, en, eh, Bool.not_true, Bool.not_false,
      Bool.false_eq_true, if_false, if_true]

/-- Witness for C10: the row with an empty `hospital_name` is inserted by
the batch operation but rejected by the single create. -/
theorem C10_batch_accepts_empty_values_witness :
    (batch_add_products [] 1 5 [⟨some "a1", some "n1", some "", some "2024-01-01"⟩]).1 =
      [] ++ [{ id := 1, product_code := upperStr "a1", product_name := "n1",
               hospital_name := "", purchase_date := normDate "2024-01-01",
               created_at := 5, updated_at := 5 }] ∧
    add_product [] 1 5 ⟨some "a1", some "n1", some "", some "2024-01-01"⟩ =
      ([], .validationError "缺少必要欄位: hospital_name") :=
  ⟨(C10_batch_accepts_empty_values "a1" "n1" "" "2024-01-01").2.2.2.1 [] 1 5
    (by decide),
   (C10_batch_accepts_empty_values "a1" "n1" "" "2024-01-01").2.2.2.2 rfl
    (by decide) (by decide) [] 1 5⟩

end ProductVerify
